import Mathlib

/-!
Verification of the decision logic of the marketMind pipeline
(`src/agents/*.py`): sentiment scoring, market trend / opportunity /
risk rules, competitor mention counting and regulatory keyword
matching.  Text is modelled as `List Char` (the characters of a Python
`str`); `str.lower()` becomes a character-wise `Char.toLower` map and
the Python substring operator `in` becomes `hasSubstr`.  Python floats
are modelled as exact rationals; `round(x, 3)` becomes `round3`
(round-half-to-even at three decimal places).
-/

/-- Model of Python `needle == hay[:len(needle)]`: does `hay` start with
`needle`?  (Character-wise comparison.) -/
def startsWithL : List Char → List Char → Bool
  | [], _ => true
  | _ :: _, [] => false
  | a :: as, b :: bs => if a = b then startsWithL as bs else false

/-- Model of the Python substring test `needle in hay` on strings:
true iff `needle` occurs contiguously inside `hay`. -/
def hasSubstr (needle : List Char) : List Char → Bool
  | [] => startsWithL needle []
  | h :: t => startsWithL needle (h :: t) || hasSubstr needle t

/-- Model of Python `s.lower()`: character-wise lowering of a string. -/
def strLower (s : String) : List Char := s.data.map Char.toLower

theorem startsWithL_self_append (n v : List Char) :
    startsWithL n (n ++ v) = true := by
  induction n with
  | nil => rfl
  | cons a as ih => simp [startsWithL, ih]

theorem hasSubstr_nil_needle (hay : List Char) : hasSubstr [] hay = true := by
  cases hay <;> simp [hasSubstr, startsWithL]

theorem hasSubstr_self_append (n v : List Char) :
    hasSubstr n (n ++ v) = true := by
  cases n with
  | nil => exact hasSubstr_nil_needle v
  | cons a as =>
      have h := startsWithL_self_append (a :: as) v
      show hasSubstr (a :: as) (a :: (as ++ v)) = true
      simp only [hasSubstr, Bool.or_eq_true]
      exact Or.inl (by simpa using h)

theorem hasSubstr_append_left (n x u : List Char) (h : hasSubstr n x = true) :
    hasSubstr n (u ++ x) = true := by
  induction u with
  | nil => simpa using h
  | cons a t ih =>
      cases hx : t ++ x with
      | nil => simp_all [hasSubstr]
      | cons b bs =>
          show hasSubstr n (a :: (t ++ x)) = true
          simp [hasSubstr, ih]

/-- An occurrence of `n` anywhere inside `u ++ n ++ v` is found by
`hasSubstr`. -/
theorem hasSubstr_of_middle (n u v : List Char) :
    hasSubstr n (u ++ n ++ v) = true := by
  rw [List.append_assoc]
  exact hasSubstr_append_left n (n ++ v) u (hasSubstr_self_append n v)

/-- The fixed lawsuit-keyword list of
`SentimentAnalystAgent.detect_lawsuits` (sentiment_analyst_agent.py,
lines 43-46). -/
def lawsuit_keywords : List String :=
  ["lawsuit", "sued", "legal action", "court", "litigation",
   "settlement", "class action", "dispute", "patent", "infringement"]

/-- `SentimentAnalystAgent.detect_lawsuits` on the characters of a
title: lower the text and test each keyword with the Python `in`
operator (`any(keyword in text_lower for keyword in lawsuit_keywords)`). -/
def detectL (text : List Char) : Bool :=
  lawsuit_keywords.any (fun k => hasSubstr k.data (text.map Char.toLower))

/-- `SentimentAnalystAgent.detect_lawsuits` on a Python string. -/
def detect_lawsuits (text : String) : Bool := detectL text.data

theorem map_toLower_append (a b : List Char) :
    (a ++ b).map Char.toLower = a.map Char.toLower ++ b.map Char.toLower :=
  List.map_append Char.toLower a b

/-- Article as produced by `ResearchAgent` into `raw_data.json` under the
key `"news"`: `{title, link, date, source}`.  Only `title` and `link` are
read by the downstream stages. -/
structure Article where
  title : String
  link : String
  date : Option String := none
  source : Option String := none
deriving DecidableEq

/-- The external text collaborators of `SentimentAnalystAgent`, out of
scope per the spec: `TextBlob(title).sentiment.polarity` and
`.subjectivity`, the part-of-speech tags `blob.tags`, and the wall-clock
timestamp `datetime.now().isoformat()`.  The analyzer is parametric in
them. -/
structure TextModel where
  polarity : String → ℚ
  subjectivity : String → ℚ
  tags : String → List (String × String)
  now : String

/-- The positive-indicator words of `_analyze_news_sentiment`
(sentiment_analyst_agent.py, line 160). -/
def positive_indicators : List String :=
  ["launch", "innovation", "growth", "partnership", "success"]

/-- The negative-indicator words of `_analyze_news_sentiment`
(sentiment_analyst_agent.py, line 161). -/
def negative_indicators : List String :=
  ["lawsuit", "dispute", "decline", "investigation", "concern"]

/-- Round-half-to-even of a rational to an integer; the tie-breaking
rule of Python's built-in `round`. -/
def rndHalfEven (q : ℚ) : ℤ :=
  let f := ⌊q⌋
  let r := q - (f : ℚ)
  if r < 1/2 then f
  else if 1/2 < r then f + 1
  else if f % 2 = 0 then f else f + 1

/-- Model of Python `round(x, 3)` (exact rational arithmetic in place of
binary floats, half-to-even at the third decimal). -/
def round3 (q : ℚ) : ℚ := (rndHalfEven (q * 1000) : ℚ) / 1000

/-- The keyword-adjusted polarity of a title
(sentiment_analyst_agent.py, lines 157-168): start from the TextBlob
polarity, add `0.1` per positive indicator contained in the lowered
title, then subtract `0.1` per contained negative indicator, in list
order exactly as the two `for` loops do. -/
def adjScore (M : TextModel) (t : String) : ℚ :=
  negative_indicators.foldl
    (fun b w => if hasSubstr w.data (strLower t) then b - 1/10 else b)
    (positive_indicators.foldl
      (fun b w => if hasSubstr w.data (strLower t) then b + 1/10 else b)
      (M.polarity t))

/-- The normalized (clamped) score
`final_score = max(min(base_score, 1.0), -1.0)`
(sentiment_analyst_agent.py, line 171). -/
def finalScore (M : TextModel) (t : String) : ℚ :=
  max (min (adjScore M t) 1) (-1)

/-- Per-article sentiment record appended to `sentiment_result["articles"]`
(sentiment_analyst_agent.py, lines 183-191). -/
structure ArticleRecord where
  title : String
  sentiment_score : ℚ
  subjectivity : ℚ
  link : String
  keywords : List String
  has_legal_concern : Bool
  timestamp : String
deriving DecidableEq

/-- Entry appended to `sentiment_result["legal_concerns"]`
(sentiment_analyst_agent.py, lines 176-181). -/
structure LegalEntry where
  title : String
  link : String
  concern_type : String
  severity : String
deriving DecidableEq

/-- The aggregate `sentiment_result` dictionary of
`_analyze_news_sentiment` (sentiment_analyst_agent.py, lines 140-144). -/
structure NewsAggregate where
  articles : List ArticleRecord
  overall_score : ℚ
  legal_concerns : List LegalEntry
deriving DecidableEq

/-- The article record built for one article: `sentiment_score` is the
clamped score rounded to three decimals, `subjectivity` the rounded
TextBlob subjectivity, `keywords` the words whose POS tag starts with
`"NN"`, `has_legal_concern` the `detect_lawsuits` flag
(sentiment_analyst_agent.py, lines 183-191). -/
def recordOf (M : TextModel) (a : Article) : ArticleRecord :=
  { title := a.title
    sentiment_score := round3 (finalScore M a.title)
    subjectivity := round3 (M.subjectivity a.title)
    link := a.link
    keywords := (M.tags a.title).filterMap
      (fun p => if p.2.startsWith ("NN") then some p.1 else none)
    has_legal_concern := detect_lawsuits a.title
    timestamp := M.now }

/-- The legal-concern entry built for one article whose title triggers
`detect_lawsuits`; severity compares the unclamped adjusted score
`base_score` against `-0.3` (sentiment_analyst_agent.py, lines 176-181). -/
def legalEntryOf (M : TextModel) (a : Article) : LegalEntry :=
  { title := a.title
    link := a.link
    concern_type := "potential_lawsuit"
    severity := if adjScore M a.title < -(3/10) then "high" else "medium" }

/-- Loop state of the `for article in news_data.get("news", [])` loop of
`_analyze_news_sentiment`: the lists built so far and the running
`total_sentiment`. -/
structure SentState where
  articles : List ArticleRecord
  legal_concerns : List LegalEntry
  total : ℚ

/-- One iteration of the article loop (sentiment_analyst_agent.py,
lines 152-194): possibly append a legal concern, append the article
record, add the clamped score to `total_sentiment`. -/
def articleStep (M : TextModel) (st : SentState) (a : Article) : SentState :=
  let st1 :=
    if detect_lawsuits a.title then
      { st with legal_concerns := st.legal_concerns ++ [legalEntryOf M a] }
    else st
  { st1 with
      articles := st1.articles ++ [recordOf M a]
      total := st1.total + finalScore M a.title }

/-- `_analyze_news_sentiment` with the news list already loaded
(sentiment_analyst_agent.py, lines 140-197): empty list returns the
empty aggregate before the division; otherwise run the loop and set
`overall_score = round(total_sentiment / len(texts), 3)`. -/
def analyzeNews (M : TextModel) (news : List Article) : NewsAggregate :=
  if news = [] then { articles := [], overall_score := 0, legal_concerns := [] }
  else
    let st := news.foldl (articleStep M) { articles := [], legal_concerns := [], total := 0 }
    { articles := st.articles
      overall_score := round3 (st.total / news.length)
      legal_concerns := st.legal_concerns }

/-- Outcome of opening and JSON-parsing an input file; any failure is
caught by the stage's `except` handler. -/
inductive LoadErr where
  | fileMissing
  | malformed
deriving DecidableEq

/-- `_analyze_news_sentiment` including its `except` handler
(sentiment_analyst_agent.py, lines 199-201): any load failure yields
`{"articles": [], "overall_score": 0.0, "legal_concerns": []}`. -/
def analyzeNewsRun (M : TextModel) (load : Except LoadErr (List Article)) :
    NewsAggregate :=
  match load with
  | .error _ => { articles := [], overall_score := 0, legal_concerns := [] }
  | .ok news => analyzeNews M news

/-- One social-media post record from `get_social_sentiment`
(sentiment_analyst_agent.py, lines 66-75); the Twitter call is an
external collaborator, so the list of posts is a parameter. -/
structure SocialPost where
  text : String
  sentiment_score : ℚ
  subjectivity : ℚ
  followers : ℕ
  timestamp : String
  has_legal_concern : Bool
deriving DecidableEq

/-- The `sentiment_data["sentiment_analysis"]` object built by
`analyze_sentiment` (sentiment_analyst_agent.py, lines 93-100).  Its
keys are exactly `news_sentiment`, `social_sentiment`,
`combined_score`, `articles_analyzed`, `social_posts_analyzed`,
`summary`; there is no key named `overall_score` at this level. -/
structure SentAnalysisBlock where
  news_sentiment : NewsAggregate
  social_sentiment : List SocialPost
  combined_score : ℚ
  articles_analyzed : ℕ
  social_posts_analyzed : ℕ
  summary : String
deriving DecidableEq

/-- The full `sentiment_data` document built by `analyze_sentiment`
(sentiment_analyst_agent.py, lines 91-104): the top-level
`legal_concerns` and `potential_risks` keys are set to the literal
empty list, and `combined_score` to the literal `0.0`. -/
structure SentimentDoc where
  company : String
  sentiment_analysis : SentAnalysisBlock
  legal_concerns : List LegalEntry
  potential_risks : List String
  timestamp : String
deriving DecidableEq

/-- `SentimentAnalystAgent.analyze_sentiment` (sentiment_analyst_agent.py,
lines 82-127): combine the news aggregate with the social posts; the
Gemini legal prompt is an external call whose result, when present,
only adds a separate `legal_analysis` key and is omitted here. -/
def analyze_sentiment (company : String) (M : TextModel)
    (newsLoad : Except LoadErr (List Article)) (social : List SocialPost) :
    SentimentDoc :=
  let news_sentiment := analyzeNewsRun M newsLoad
  { company := company
    sentiment_analysis :=
      { news_sentiment := news_sentiment
        social_sentiment := social
        combined_score := 0
        articles_analyzed := news_sentiment.articles.length
        social_posts_analyzed := social.length
        summary := "" }
    legal_concerns := []
    potential_risks := []
    timestamp := M.now }

/-- The keys of `financial_data.json` that `DataAnalystAgent` reads:
`financial_data.get("price_change_percent", 0)` and
`financial_data.get("market_cap_formatted", "N/A")`
(data_analyst_agent.py, lines 80-81, 131, 156).  `none` models an
absent key, for which the `.get` default is used. -/
structure FinDoc where
  price_change_percent : Option ℚ
  market_cap_formatted : Option String
deriving DecidableEq

/-- The nested `market_cap` object written by
`FinancialAnalystAgent.fetch_financial_data`
(financial_analyst_agent.py, lines 118-123). -/
structure MarketCapObj where
  value : Option ℚ
  currency : String
  usd_value : Option ℚ
  formatted : String
deriving DecidableEq

/-- The `financial_data` dictionary written by
`FinancialAnalystAgent.fetch_financial_data` into `financial_data.json`
(financial_analyst_agent.py, lines 113-126).  Its top-level keys are
exactly `company`, `ticker`, `current_price`, `price_change_percent`,
`market_cap`, `exchange`, `timestamp`. -/
structure FinancialSnapshot where
  company : String
  ticker : String
  current_price : ℚ
  price_change_percent : ℚ
  market_cap : MarketCapObj
  exchange : String
  timestamp : String
deriving DecidableEq

/-- The view `DataAnalystAgent` obtains of a snapshot written by
`fetch_financial_data`: the top-level key `price_change_percent` is
present, while the key `market_cap_formatted` does not occur anywhere
in the snapshot dictionary (the formatted string sits at
`market_cap["formatted"]`), so `.get("market_cap_formatted", "N/A")`
falls back to its default. -/
def consumedFin (s : FinancialSnapshot) : FinDoc :=
  { price_change_percent := some s.price_change_percent
    market_cap_formatted := none }

/-- One `market_trends` entry (data_analyst_agent.py, lines 85-97). -/
structure Trend where
  type : String
  description : String
  impact : String
deriving DecidableEq

/-- `DataAnalystAgent._analyze_market_trends` (data_analyst_agent.py,
lines 76-102): read the two keys with their `.get` defaults, emit a
`price_movement` entry when `abs(price_change) > 5` and a
`market_position` entry when the formatted market cap is not `"N/A"`. -/
def analyze_market_trends (fd : FinDoc) : List Trend :=
  let price_change := fd.price_change_percent.getD 0
  let market_cap := fd.market_cap_formatted.getD ("N/A")
  (if 5 < |price_change| then
    [{ type := "price_movement"
       description := "Significant price movement of " ++ toString price_change ++ "%"
       impact := if 10 < |price_change| then "high" else "medium" }]
   else [])
  ++
  (if market_cap ≠ "N/A" then
    [{ type := "market_position"
       description := "Market cap: " ++ market_cap
       impact := if -5 < price_change then "stable" else "concerning" }]
   else [])

/-- The static company-competitor map of
`DataAnalystAgent._load_competitor_map` (data_analyst_agent.py,
lines 18-25), as an association list in source order. -/
def competitor_map : List (String × List String) :=
  [("Samsung", ["Apple", "LG", "Sony", "Xiaomi"]),
   ("Tesla", ["Ford", "GM", "Volkswagen", "BYD"]),
   ("Toyota", ["Honda", "Volkswagen", "Hyundai", "Ford"]),
   ("Volkswagen", ["Toyota", "BMW", "Mercedes", "Tesla"])]

/-- Model of Python `dict.get(key)` on a dict literal written as an
association list: first matching key wins, `none` when absent. -/
def lookupAssoc {α : Type} : List (String × α) → String → Option α
  | [], _ => none
  | (k, v) :: rest, key => if k = key then some v else lookupAssoc rest key

/-- `self.competitor_map.get(self.company, [])`
(data_analyst_agent.py, line 106). -/
def competitorsOf (company : String) : List String :=
  (lookupAssoc competitor_map company).getD []

/-- The mention count of one competitor:
`sum(1 for article in news if competitor.lower() in article["title"].lower())`
(data_analyst_agent.py, lines 111-112). -/
def mentionCount (competitor : String) (news : List Article) : ℕ :=
  news.countP (fun a => hasSubstr (strLower competitor) (strLower a.title))

/-- One `competitor_analysis` entry (data_analyst_agent.py,
lines 115-119). -/
structure CompetitorEntry where
  competitor : String
  mentions : ℕ
  relevance : String
deriving DecidableEq

/-- The body of the competitor loop: append an entry only when
`mentions > 0`, relevance `"high"` when `mentions > 2`
(data_analyst_agent.py, lines 110-119). -/
def competitorEntryOf (news : List Article) (c : String) : Option CompetitorEntry :=
  let mentions := mentionCount c news
  if 0 < mentions then
    some { competitor := c, mentions := mentions
           relevance := if 2 < mentions then "high" else "medium" }
  else none

/-- `DataAnalystAgent._analyze_competitors` (data_analyst_agent.py,
lines 104-124) with the news list already extracted from
`news_data.get("news", [])`. -/
def analyze_competitors (company : String) (news : List Article) :
    List CompetitorEntry :=
  (competitorsOf company).filterMap (competitorEntryOf news)

/-- The view `DataAnalystAgent` reads of `sentiment_data.json`:
`sentiment_data.get("sentiment_analysis", {}).get("overall_score", 0)`
(data_analyst_agent.py, line 139) and
`sentiment_data.get("legal_concerns")` (line 164).  `none` models an
absent key. -/
structure SentDocView where
  sentiment_analysis : Option (Option ℚ)
  legal_concerns : Option (List LegalEntry)
deriving DecidableEq

/-- The view `DataAnalystAgent` obtains of a document written by
`analyze_sentiment`: the top-level `sentiment_analysis` key is present,
but the object stored there (keys `news_sentiment`, `social_sentiment`,
`combined_score`, `articles_analyzed`, `social_posts_analyzed`,
`summary` — sentiment_analyst_agent.py, lines 93-100) has no
`overall_score` key, so the inner `.get("overall_score", 0)` falls back
to its default; the top-level `legal_concerns` key is present and holds
the document's (always empty) list. -/
def consumedSent (d : SentimentDoc) : SentDocView :=
  { sentiment_analysis := some none
    legal_concerns := some d.legal_concerns }

/-- One `opportunities` entry (data_analyst_agent.py, lines 132-144). -/
structure Opportunity where
  type : String
  description : String
  confidence : String
deriving DecidableEq

/-- `DataAnalystAgent._identify_opportunities` (data_analyst_agent.py,
lines 126-149): an `investment` entry when the price change is
negative, a `market_sentiment` entry when the consumed overall score
exceeds `0.2`. -/
def identify_opportunities (fd : FinDoc) (sd : SentDocView) : List Opportunity :=
  (if fd.price_change_percent.getD 0 < 0 then
    [{ type := "investment"
       description := "Potential buying opportunity"
       confidence := "medium" }]
   else [])
  ++
  (if 1/5 < (match sd.sentiment_analysis with
             | some v => v.getD 0
             | none => 0) then
    [{ type := "market_sentiment"
       description := "Positive market sentiment indicates growth potential"
       confidence := "high" }]
   else [])

/-- One `risk_factors` entry (data_analyst_agent.py, lines 157-169). -/
structure Risk where
  type : String
  description : String
  severity : String
deriving DecidableEq

/-- `DataAnalystAgent._analyze_risks` (data_analyst_agent.py,
lines 151-174): a `market_risk` entry when the price change is below
`-5`; a `legal_risk` entry when `sentiment_data.get("legal_concerns")`
is truthy, i.e. the key is present and the list non-empty (both `None`
and `[]` are falsy in Python). -/
def analyze_risks (fd : FinDoc) (sd : SentDocView) : List Risk :=
  (if fd.price_change_percent.getD 0 < -5 then
    [{ type := "market_risk"
       description := "Significant price decline"
       severity := "high" }]
   else [])
  ++
  (match sd.legal_concerns with
   | some (_ :: _) =>
      [{ type := "legal_risk"
         description := "Active legal concerns detected"
         severity := "high" }]
   | _ => [])

/-- The `news_data` dictionary loaded from `raw_data.json`;
`news_data.get("news", [])` yields the article list, so a failed load
(`{}`) is the empty list. -/
structure NewsData where
  news : List Article
deriving DecidableEq

/-- The `analysis_results` record of `DataAnalystAgent.analyze_data`
(data_analyst_agent.py, lines 47-55). -/
structure AnalysisResult where
  company : String
  timestamp : String
  market_trends : List Trend
  competitor_analysis : List CompetitorEntry
  opportunities : List Opportunity
  risk_factors : List Risk
  summary : String
deriving DecidableEq

/-- `_load_json` (data_analyst_agent.py, lines 67-74): a failed open or
parse is caught and replaced by `{}`, which each consumer then reads
through its `.get` defaults; `d` is the `{}`-as-seen-by-that-consumer. -/
def loadOrEmpty {α : Type} (d : α) (load : Except LoadErr α) : α :=
  match load with
  | .ok x => x
  | .error _ => d

/-- The empty dict `{}` viewed as the financial keys: both absent. -/
def emptyFinDoc : FinDoc := { price_change_percent := none, market_cap_formatted := none }

/-- The empty dict `{}` viewed as `news_data`: no `"news"` key. -/
def emptyNewsData : NewsData := { news := [] }

/-- The empty dict `{}` viewed as the sentiment keys: both absent. -/
def emptySentView : SentDocView := { sentiment_analysis := none, legal_concerns := none }

/-- `DataAnalystAgent.analyze_data` (data_analyst_agent.py, lines
39-65): load the three inputs (each degrading to `{}`), then build the
full record; `summary` stays `""` (the Gemini call is external and only
fires when a model is configured). -/
def analyze_data (company now : String)
    (finLoad : Except LoadErr FinDoc)
    (newsLoad : Except LoadErr NewsData)
    (sentLoad : Except LoadErr SentDocView) : AnalysisResult :=
  let fd := loadOrEmpty emptyFinDoc finLoad
  let nd := loadOrEmpty emptyNewsData newsLoad
  let sd := loadOrEmpty emptySentView sentLoad
  { company := company
    timestamp := now
    market_trends := analyze_market_trends fd
    competitor_analysis := analyze_competitors company nd.news
    opportunities := identify_opportunities fd sd
    risk_factors := analyze_risks fd sd
    summary := "" }

/-- One `{regions, keywords}` record of the regulatory map
(regulatory_analyst_agent.py, lines 19-26). -/
structure RegulatoryEntry where
  regions : List String
  keywords : List String
deriving DecidableEq

/-- The static regulatory map of
`RegulatoryAnalystAgent._load_regulatory_map`
(regulatory_analyst_agent.py, lines 16-28). -/
def regulatory_map : List (String × RegulatoryEntry) :=
  [("Samsung",
    { regions := ["South Korea", "EU", "US"]
      keywords := ["GDPR", "antitrust", "FTC", "privacy", "consumer protection"] }),
   ("Tesla",
    { regions := ["US", "EU", "China"]
      keywords := ["emissions", "safety", "autonomous", "NHTSA", "recall"] })]

/-- `self.regulatory_map.get(self.company, {}).get("keywords", [])`
(regulatory_analyst_agent.py, lines 46 and 60). -/
def keywordsOf (company : String) : List String :=
  match lookupAssoc regulatory_map company with
  | some e => e.keywords
  | none => []

/-- One `regulatory_mentions` entry (regulatory_analyst_agent.py,
lines 62-66). -/
structure RegMention where
  regulation : String
  title : String
  link : String
deriving DecidableEq

/-- The double loop of `analyze_regulations`
(regulatory_analyst_agent.py, lines 56-66): for each article in order,
for each keyword of the company in order, append one mention when the
lowered keyword occurs in the lowered title. -/
def regulatory_mentions_for (company : String) (news : List Article) :
    List RegMention :=
  news.flatMap (fun a =>
    (keywordsOf company).filterMap (fun k =>
      if hasSubstr (strLower k) (strLower a.title) then
        some { regulation := k, title := a.title, link := a.link }
      else none))

/-- The `regulatory_findings` record (regulatory_analyst_agent.py,
lines 47-53). -/
structure RegFindings where
  company : String
  timestamp : String
  regulatory_mentions : List RegMention
  compliance_risks : List String
  summary : String
deriving DecidableEq

/-- `RegulatoryAnalystAgent.analyze_regulations` body after a
successful load (regulatory_analyst_agent.py, lines 46-73);
`compliance_risks` is never populated and `summary` is only filled by
the external Gemini call, absent here. -/
def analyze_regulations (company now : String) (news : List Article) :
    RegFindings :=
  { company := company
    timestamp := now
    regulatory_mentions := regulatory_mentions_for company news
    compliance_risks := []
    summary := "" }

/-- `RegulatoryAnalystAgent.analyze_regulations` including its `except`
handler (regulatory_analyst_agent.py, lines 75-77): a failed load of
`raw_data.json` returns the bare `{}` (modelled as `none`), not a
populated findings record. -/
def analyze_regulations_run (company now : String)
    (load : Except LoadErr NewsData) : Option RegFindings :=
  match load with
  | .error _ => none
  | .ok nd => some (analyze_regulations company now nd.news)

/-- Number of positive-indicator words contained in the lowered title
(spec-side counting form of the first adjustment loop). -/
def posHits (t : String) : ℕ :=
  positive_indicators.countP (fun w => hasSubstr w.data (strLower t))

/-- Number of negative-indicator words contained in the lowered title
(spec-side counting form of the second adjustment loop). -/
def negHits (t : String) : ℕ :=
  negative_indicators.countP (fun w => hasSubstr w.data (strLower t))

/-- Spec-side adjusted polarity, following the claim wording: base
polarity plus `0.1` per matching positive indicator, minus `0.1` per
matching negative indicator. -/
def specAdjScore (M : TextModel) (t : String) : ℚ :=
  M.polarity t + (posHits t : ℚ) * (1/10) - (negHits t : ℚ) * (1/10)

/-- Spec-side final polarity: the adjusted polarity clamped to `[-1, 1]`. -/
def specFinalScore (M : TextModel) (t : String) : ℚ :=
  max (min (specAdjScore M t) 1) (-1)

theorem foldl_if_add (p : String → Bool) (c : ℚ) :
    ∀ (l : List String) (b : ℚ),
      l.foldl (fun acc w => if p w then acc + c else acc) b
        = b + (l.countP p : ℚ) * c
  | [], b => by simp
  | a :: t, b => by
      by_cases h : p a = true
      · rw [List.foldl_cons, if_pos h, foldl_if_add p c t (b + c),
          List.countP_cons, if_pos h]
        push_cast
        ring
      · rw [List.foldl_cons, if_neg h, foldl_if_add p c t b,
          List.countP_cons, if_neg h]
        push_cast
        ring

theorem foldl_if_sub (p : String → Bool) (c : ℚ) :
    ∀ (l : List String) (b : ℚ),
      l.foldl (fun acc w => if p w then acc - c else acc) b
        = b - (l.countP p : ℚ) * c
  | [], b => by simp
  | a :: t, b => by
      by_cases h : p a = true
      · rw [List.foldl_cons, if_pos h, foldl_if_sub p c t (b - c),
          List.countP_cons, if_pos h]
        push_cast
        ring
      · rw [List.foldl_cons, if_neg h, foldl_if_sub p c t b,
          List.countP_cons, if_neg h]
        push_cast
        ring

/-- The two adjustment loops compute the spec-side counting form. -/
theorem adjScore_eq_spec (M : TextModel) (t : String) :
    adjScore M t = specAdjScore M t := by
  rw [adjScore, specAdjScore, posHits, negHits,
    foldl_if_add (fun w => hasSubstr w.data (strLower t)) (1/10) positive_indicators
      (M.polarity t),
    foldl_if_sub (fun w => hasSubstr w.data (strLower t)) (1/10) negative_indicators]

theorem finalScore_eq_spec (M : TextModel) (t : String) :
    finalScore M t = specFinalScore M t := by
  rw [finalScore, specFinalScore, adjScore_eq_spec]

/-- The unclamped severity test of the code coincides with the clamped
one of the claim: clamping to `[-1, 1]` does not move a score across
`-0.3`. -/
theorem adj_lt_iff_final_lt (M : TextModel) (t : String) :
    (adjScore M t < -(3/10)) ↔ (specFinalScore M t < -(3/10)) := by
  rw [specFinalScore, ← adjScore_eq_spec, max_lt_iff, min_lt_iff]
  constructor
  · intro h
    exact ⟨Or.inl h, by norm_num⟩
  · rintro ⟨h | h, -⟩
    · exact h
    · exact absurd h (by norm_num)

/-- Characterization of the article loop of `_analyze_news_sentiment`:
starting from any state it appends one record per article, one legal
entry per lawsuit-flagged article, and accumulates the clamped scores. -/
theorem foldl_articleStep (M : TextModel) :
    ∀ (news : List Article) (st : SentState),
      news.foldl (articleStep M) st
        = { articles := st.articles ++ news.map (recordOf M)
            legal_concerns := st.legal_concerns
              ++ (news.filter (fun a => detect_lawsuits a.title)).map (legalEntryOf M)
            total := st.total + (news.map (fun a => finalScore M a.title)).sum }
  | [], st => by simp
  | a :: t, st => by
      rw [List.foldl_cons, foldl_articleStep M t (articleStep M st a)]
      by_cases h : detect_lawsuits a.title = true
      · have hstep : articleStep M st a
            = { articles := st.articles ++ [recordOf M a]
                legal_concerns := st.legal_concerns ++ [legalEntryOf M a]
                total := st.total + finalScore M a.title } := by
          simp [articleStep, h]
        rw [hstep]
        simp [SentState.mk.injEq, List.filter_cons, h, List.append_assoc, add_assoc]
      · have hb : detect_lawsuits a.title = false := by simpa using h
        have hstep : articleStep M st a
            = { articles := st.articles ++ [recordOf M a]
                legal_concerns := st.legal_concerns
                total := st.total + finalScore M a.title } := by
          simp [articleStep, hb]
        rw [hstep]
        simp [SentState.mk.injEq, List.filter_cons, hb, List.append_assoc, add_assoc]

theorem analyzeNews_articles (M : TextModel) (news : List Article) :
    (analyzeNews M news).articles = news.map (recordOf M) := by
  by_cases h : news = []
  · subst h; rfl
  · rw [analyzeNews, if_neg h, foldl_articleStep]
    simp

theorem analyzeNews_legal (M : TextModel) (news : List Article) :
    (analyzeNews M news).legal_concerns
      = (news.filter (fun a => detect_lawsuits a.title)).map (legalEntryOf M) := by
  by_cases h : news = []
  · subst h; rfl
  · rw [analyzeNews, if_neg h, foldl_articleStep]
    simp

theorem analyzeNews_overall (M : TextModel) (news : List Article) :
    (analyzeNews M news).overall_score
      = if news = [] then 0
        else round3 ((news.map (fun a => finalScore M a.title)).sum / news.length) := by
  by_cases h : news = []
  · subst h; rfl
  · rw [analyzeNews, if_neg h, if_neg h, foldl_articleStep]
    simp

theorem lookupAssoc_mem {α : Type} :
    ∀ (l : List (String × α)) (k : String) (v : α),
      lookupAssoc l k = some v → v ∈ l.map Prod.snd
  | [], k, v, h => by simp [lookupAssoc] at h
  | (a, b) :: tl, k, v, h => by
      by_cases hk : a = k
      · rw [lookupAssoc, if_pos hk] at h
        cases h
        simp
      · rw [lookupAssoc, if_neg hk] at h
        exact List.mem_cons_of_mem _ (lookupAssoc_mem tl k v h)

theorem filterMap_filter_of_not_mem (f : String → Option CompetitorEntry)
    (hf : ∀ x e, f x = some e → e.competitor = x) :
    ∀ (l : List String) (c : String), c ∉ l →
      (l.filterMap f).filter (fun e => e.competitor = c) = []
  | [], _, _ => rfl
  | a :: t, c, hc => by
      have hca : c ≠ a := fun hh => hc (hh ▸ List.mem_cons_self a t)
      have hct : c ∉ t := fun hh => hc (List.mem_cons_of_mem _ hh)
      have ih := filterMap_filter_of_not_mem f hf t c hct
      cases hfa : f a with
      | none => simpa [List.filterMap_cons, hfa] using ih
      | some e =>
          have he : e.competitor = a := hf a e hfa
          have hne : ¬(e.competitor = c) := by
            rw [he]
            exact fun hh => hca hh.symm
          simp [List.filterMap_cons, hfa, List.filter_cons, hne, ih]

theorem filterMap_filter_of_nodup (f : String → Option CompetitorEntry)
    (hf : ∀ x e, f x = some e → e.competitor = x) :
    ∀ (l : List String), l.Nodup → ∀ c ∈ l,
      (l.filterMap f).filter (fun e => e.competitor = c) = (f c).toList
  | [], _, c, hc => absurd hc (List.not_mem_nil c)
  | a :: t, hnd, c, hc => by
      have hat : a ∉ t := (List.nodup_cons.mp hnd).1
      have hndt : t.Nodup := (List.nodup_cons.mp hnd).2
      rcases List.mem_cons.mp hc with hca | hct
      · subst hca
        cases hfa : f c with
        | none =>
            simpa [List.filterMap_cons, hfa] using
              filterMap_filter_of_not_mem f hf t c hat
        | some e =>
            have he : e.competitor = c := hf c e hfa
            simp [List.filterMap_cons, hfa, List.filter_cons, he,
              filterMap_filter_of_not_mem f hf t c hat]
      · have hac : ¬(c = a) := fun hh => hat (hh ▸ hct)
        have ih := filterMap_filter_of_nodup f hf t hndt c hct
        cases hfa : f a with
        | none => simpa [List.filterMap_cons, hfa] using ih
        | some e =>
            have he : e.competitor = a := hf a e hfa
            have hne : ¬(e.competitor = c) := by
              rw [he]
              exact fun hh => hac hh.symm
            simpa [List.filterMap_cons, hfa, List.filter_cons, hne] using ih

theorem competitorEntryOf_name (news : List Article) :
    ∀ x e, competitorEntryOf news x = some e → e.competitor = x := by
  intro x e h
  rw [competitorEntryOf] at h
  by_cases hm : 0 < mentionCount x news
  · rw [if_pos hm] at h
    cases h
    rfl
  · rw [if_neg hm] at h
    cases h

theorem filterMap_if_eq_filter_map {α β : Type} (p : α → Bool) (g : α → β) :
    ∀ l : List α,
      l.filterMap (fun k => if p k then some (g k) else none) = (l.filter p).map g
  | [] => rfl
  | a :: t => by
      have ih := filterMap_if_eq_filter_map p g t
      by_cases h : p a = true
      · simp [List.filterMap_cons, List.filter_cons, h, ih]
      · have hb : p a = false := by simpa using h
        simp [List.filterMap_cons, List.filter_cons, hb, ih]

theorem length_flatMap {α β : Type} (f : α → List β) :
    ∀ l : List α, (l.flatMap f).length = (l.map (fun a => (f a).length)).sum
  | [] => rfl
  | a :: t => by simp [List.flatMap_cons, length_flatMap f t]

/-- Claim C1: for every financial input with `price_change_percent = p`,
the `market_trends` list of `_analyze_market_trends` contains a
`"price_movement"` entry iff `|p| > 5`, and any such entry's impact is
`"high"` iff `|p| > 10` (otherwise `"medium"`). -/
theorem claim_c1 (fd : FinDoc) (p : ℚ) (h : fd.price_change_percent = some p) :
    ((∃ t ∈ analyze_market_trends fd, t.type = "price_movement") ↔ 5 < |p|)
    ∧ (∀ t ∈ analyze_market_trends fd, t.type = "price_movement" →
        t.impact = if 10 < |p| then "high" else "medium") := by
  by_cases h5 : 5 < |p| <;>
    by_cases hmc : fd.market_cap_formatted.getD ("N/A") ≠ "N/A" <;>
      simp [analyze_market_trends, h, h5, hmc]

/-- Witness for C1 at the concrete input `price_change_percent = 6`: a
`"price_movement"` entry exists and carries impact `"medium"`. -/
theorem claim_c1_witness :
    (∃ t ∈ analyze_market_trends
        { price_change_percent := some 6, market_cap_formatted := none },
      t.type = "price_movement")
    ∧ (∀ t ∈ analyze_market_trends
          { price_change_percent := some 6, market_cap_formatted := none },
        t.type = "price_movement" → t.impact = "medium") := by
  have h := claim_c1
    { price_change_percent := some 6, market_cap_formatted := none } 6 rfl
  refine ⟨h.1.mpr (by norm_num), fun t ht hty => (h.2 t ht hty).trans ?_⟩
  rw [if_neg (by norm_num : ¬(10:ℚ) < |6|)]

/-- Claim C4 (amended): inserting any case variant of a keyword from the
fixed lawsuit-keyword set anywhere into a title makes `detect_lawsuits`
true — in particular it flips a `false` title to `true` and can never
flip a `true` title to `false`.  (The original claim's stronger clause,
that inserting arbitrary text never flips `true` to `false`, is refuted
by `claim_c4_counterexample`.) -/
theorem claim_c4_amended (t1 t2 kw ins : List Char)
    (hk : kw ∈ lawsuit_keywords.map String.data)
    (hcase : ins.map Char.toLower = kw) :
    detectL (t1 ++ ins ++ t2) = true := by
  obtain ⟨k, hkmem, hkd⟩ := List.mem_map.mp hk
  rw [detectL, List.any_eq_true]
  refine ⟨k, hkmem, ?_⟩
  have hmap : (t1 ++ ins ++ t2).map Char.toLower
      = t1.map Char.toLower ++ kw ++ t2.map Char.toLower := by
    rw [map_toLower_append, map_toLower_append, hcase]
  rw [hmap, hkd]
  exact hasSubstr_of_middle kw (t1.map Char.toLower) (t2.map Char.toLower)

/-- Witness for C4: inserting the case variant `"CoUrT"` of the keyword
`"court"` into `"Samsung  ruling"` is detected. -/
theorem claim_c4_witness :
    detectL (("Samsung ").data ++ ("CoUrT").data ++ (" ruling").data) = true :=
  claim_c4_amended (("Samsung ").data) ((" ruling").data) (("court").data)
    (("CoUrT").data) (by decide) (by decide)

/-- Counterexample to C4 as stated: `"court"` triggers detection, but
inserting the text `"x"` into its middle (`"cou" ++ "x" ++ "rt"`) makes
detection false — so an insertion of arbitrary text can flip
`has_legal_concern` from true to false. -/
theorem claim_c4_counterexample :
    detectL (("cou").data ++ ("rt").data) = true
    ∧ detectL (("cou").data ++ ("x").data ++ ("rt").data) = false := by
  constructor <;> decide

/-- Claim C5: an article's record carries `has_legal_concern =
detect_lawsuits title`, and `legal_concerns` holds exactly one entry per
lawsuit-flagged article, with `concern_type = "potential_lawsuit"` and
severity `"high"` iff the final polarity is below `-0.3` (the code
compares the unclamped `base_score`, which agrees with the clamped final
polarity on this threshold). -/
theorem claim_c5 (M : TextModel) (news : List Article) :
    ((analyzeNews M news).articles.map (fun r => (r.title, r.has_legal_concern))
        = news.map (fun a => (a.title, detect_lawsuits a.title)))
    ∧ ((analyzeNews M news).legal_concerns
        = (news.filter (fun a => detect_lawsuits a.title)).map (fun a =>
            { title := a.title, link := a.link
              concern_type := "potential_lawsuit"
              severity := if specFinalScore M a.title < -(3/10)
                          then "high" else "medium" })) := by
  constructor
  · rw [analyzeNews_articles, List.map_map]
    rfl
  · rw [analyzeNews_legal]
    have hfun : ∀ a : Article, legalEntryOf M a
        = { title := a.title, link := a.link
            concern_type := "potential_lawsuit"
            severity := if specFinalScore M a.title < -(3/10)
                        then "high" else "medium" } := by
      intro a
      rw [legalEntryOf]
      simp only [LegalEntry.mk.injEq, true_and]
      by_cases hlt : adjScore M a.title < -(3/10)
      · rw [if_pos hlt, if_pos ((adj_lt_iff_final_lt M a.title).mp hlt)]
      · rw [if_neg hlt,
          if_neg (fun hh => hlt ((adj_lt_iff_final_lt M a.title).mpr hh))]
    exact List.map_congr_left (fun a _ => hfun a)

/-- Claim C10: every document produced by `analyze_sentiment` has
top-level `legal_concerns = []` and `sentiment_analysis.combined_score
= 0.0`; consequently `_analyze_risks`, which only tests the top-level
`legal_concerns` key, never emits a `"legal_risk"` entry on such a
document. -/
theorem claim_c10 (company : String) (M : TextModel)
    (load : Except LoadErr (List Article)) (social : List SocialPost)
    (fd : FinDoc) :
    ((analyze_sentiment company M load social).legal_concerns = [])
    ∧ ((analyze_sentiment company M load social).sentiment_analysis.combined_score = 0)
    ∧ ((analyze_risks fd
          (consumedSent (analyze_sentiment company M load social))).filter
        (fun r => r.type = "legal_risk") = []) := by
  refine ⟨rfl, rfl, ?_⟩
  rw [analyze_risks]
  have hsd : (consumedSent (analyze_sentiment company M load social)).legal_concerns
      = some [] := rfl
  rw [hsd]
  split_ifs <;> simp

theorem rndHalfEven_eq_of_lt_half (q : ℚ) (z : ℤ)
    (h1 : (z : ℚ) ≤ q) (h2 : q < z + 1) (h3 : q - z < 1/2) :
    rndHalfEven q = z := by
  have hfl : ⌊q⌋ = z := Int.floor_eq_iff.mpr ⟨h1, h2⟩
  rw [rndHalfEven]
  simp only [hfl]
  rw [if_pos h3]

theorem rndHalfEven_eq_of_gt_half (q : ℚ) (z : ℤ)
    (h1 : (z : ℚ) ≤ q) (h2 : q < z + 1) (h3 : 1/2 < q - z) :
    rndHalfEven q = z + 1 := by
  have hfl : ⌊q⌋ = z := Int.floor_eq_iff.mpr ⟨h1, h2⟩
  rw [rndHalfEven]
  simp only [hfl]
  rw [if_neg (by linarith), if_pos h3]

theorem round3_eq_of_lt_half (q : ℚ) (z : ℤ)
    (h1 : (z : ℚ) ≤ q * 1000) (h2 : q * 1000 < z + 1) (h3 : q * 1000 - z < 1/2) :
    round3 q = (z : ℚ) / 1000 := by
  rw [round3, rndHalfEven_eq_of_lt_half (q * 1000) z h1 h2 h3]

theorem round3_eq_of_gt_half (q : ℚ) (z : ℤ)
    (h1 : (z : ℚ) ≤ q * 1000) (h2 : q * 1000 < z + 1) (h3 : 1/2 < q * 1000 - z) :
    round3 q = ((z : ℚ) + 1) / 1000 := by
  rw [round3, rndHalfEven_eq_of_gt_half (q * 1000) z h1 h2 h3]
  push_cast
  ring

theorem clampEval (q : ℚ) (h1 : q ≤ 1) (h2 : -1 ≤ q) :
    max (min q 1) (-1) = q := by
  rw [min_eq_left h1, max_eq_left h2]

/-- Claim C3 (amended): the stored per-article `sentiment_score` is the
keyword-adjusted, clamped polarity **rounded to three decimal places**
(Python `round(final_score, 3)`), and the aggregate `overall_score` is
the arithmetic mean of the *unrounded* clamped polarities, itself
rounded to three decimal places — `0.0` for an empty article list (the
division is guarded).  (The original claim omits the rounding; see
`claim_c3_counterexample`.) -/
theorem claim_c3_amended (M : TextModel) (news : List Article) :
    ((analyzeNews M news).articles.map (fun r => r.sentiment_score)
        = news.map (fun a => round3 (specFinalScore M a.title)))
    ∧ ((analyzeNews M news).overall_score
        = if news = [] then 0
          else round3 ((news.map (fun a => specFinalScore M a.title)).sum
                        / news.length)) := by
  constructor
  · rw [analyzeNews_articles, List.map_map]
    have hfun : ∀ a : Article, ((fun r : ArticleRecord => r.sentiment_score)
        ∘ recordOf M) a = round3 (specFinalScore M a.title) := by
      intro a
      simp only [Function.comp, recordOf, finalScore_eq_spec]
    exact List.map_congr_left (fun a _ => hfun a)
  · rw [analyzeNews_overall]
    by_cases h : news = []
    · simp [h]
    · rw [if_neg h, if_neg h]
      have : news.map (fun a => finalScore M a.title)
          = news.map (fun a => specFinalScore M a.title) :=
        List.map_congr_left (fun a _ => finalScore_eq_spec M a.title)
      rw [this]

/-- A concrete external model assigning polarity, subjectivity and POS
tags zero/empty everywhere, used for the concrete evaluations. -/
def zeroModel : TextModel :=
  { polarity := fun _ => 0, subjectivity := fun _ => 0
    tags := fun _ => [], now := "T0" }

/-- Concrete article list for the C3 counterexample: two titles contain
the positive indicator `"growth"`, one contains no indicator. -/
def cxNews : List Article :=
  [{ title := "growth a", link := "l1" },
   { title := "growth b", link := "l2" },
   { title := "plain", link := "l3" }]

theorem specFinalScore_growth_a :
    specFinalScore zeroModel ("growth a") = 1/10 := by
  have hp : posHits ("growth a") = 1 := by decide
  have hn : negHits ("growth a") = 0 := by decide
  rw [specFinalScore, specAdjScore, hp, hn, zeroModel]
  push_cast
  rw [show ((0:ℚ) + 1 * (1/10) - 0 * (1/10)) = 1/10 by ring]
  exact clampEval (1/10) (by norm_num) (by norm_num)

theorem specFinalScore_growth_b :
    specFinalScore zeroModel ("growth b") = 1/10 := by
  have hp : posHits ("growth b") = 1 := by decide
  have hn : negHits ("growth b") = 0 := by decide
  rw [specFinalScore, specAdjScore, hp, hn, zeroModel]
  push_cast
  rw [show ((0:ℚ) + 1 * (1/10) - 0 * (1/10)) = 1/10 by ring]
  exact clampEval (1/10) (by norm_num) (by norm_num)

theorem specFinalScore_plain :
    specFinalScore zeroModel ("plain") = 0 := by
  have hp : posHits ("plain") = 0 := by decide
  have hn : negHits ("plain") = 0 := by decide
  rw [specFinalScore, specAdjScore, hp, hn, zeroModel]
  push_cast
  rw [show ((0:ℚ) + 0 * (1/10) - 0 * (1/10)) = 0 by ring]
  exact clampEval 0 (by norm_num) (by norm_num)

/-- Counterexample to C3 as stated: on three articles with base polarity
`0` and final scores `0.1, 0.1, 0`, the code stores
`overall_score = round(0.2 / 3, 3) = 0.067`, while the exact arithmetic
mean of the final per-article scores is `1/15 = 0.0666…` — the two
differ, because the code rounds to three decimals. -/
theorem claim_c3_counterexample :
    ((analyzeNews zeroModel cxNews).overall_score = 67/1000)
    ∧ ((cxNews.map (fun a => specFinalScore zeroModel a.title)).sum
        / (cxNews.length : ℚ) = 1/15)
    ∧ ((67 : ℚ)/1000 ≠ 1/15) := by
  have hsum : (cxNews.map (fun a => specFinalScore zeroModel a.title)).sum
      = 1/5 := by
    simp only [cxNews, List.map_cons, List.map_nil, List.sum_cons, List.sum_nil,
      specFinalScore_growth_a, specFinalScore_growth_b, specFinalScore_plain]
    norm_num
  refine ⟨?_, ?_, by norm_num⟩
  · rw [analyzeNews_overall]
    rw [if_neg (by decide : ¬cxNews = [])]
    have : cxNews.map (fun a => finalScore zeroModel a.title)
        = cxNews.map (fun a => specFinalScore zeroModel a.title) :=
      List.map_congr_left (fun a _ => finalScore_eq_spec zeroModel a.title)
    rw [this, hsum]
    have hlen : ((cxNews.length : ℕ) : ℚ) = 3 := by norm_num [cxNews]
    rw [hlen, show (1:ℚ)/5 / 3 = 1/15 by norm_num,
      round3_eq_of_gt_half (1/15) 66 (by norm_num) (by norm_num) (by norm_num)]
    norm_num
  · rw [hsum]
    norm_num [cxNews]

theorem filterMap_none {α β : Type} (f : α → Option β) (h : ∀ a, f a = none) :
    ∀ l : List α, l.filterMap f = []
  | [] => rfl
  | a :: t => by simp [List.filterMap_cons, h a, filterMap_none f h t]

theorem analyze_market_trends_empty : analyze_market_trends emptyFinDoc = [] := by
  rw [analyze_market_trends]
  have h1 : emptyFinDoc.price_change_percent = none := rfl
  have h2 : emptyFinDoc.market_cap_formatted = none := rfl
  rw [h1, h2]
  simp only [Option.getD_none]
  rw [if_neg (by rw [abs_zero]; norm_num : ¬(5:ℚ) < |0|), if_neg (by simp)]
  rfl

theorem analyze_competitors_nil (company : String) :
    analyze_competitors company [] = [] := by
  rw [analyze_competitors]
  refine filterMap_none _ (fun c => ?_) _
  rw [competitorEntryOf, if_neg]
  simp [mentionCount]

theorem identify_opportunities_empty :
    identify_opportunities emptyFinDoc emptySentView = [] := by
  rw [identify_opportunities]
  have h1 : emptyFinDoc.price_change_percent = none := rfl
  have h2 : emptySentView.sentiment_analysis = none := rfl
  rw [h1, h2]
  simp only [Option.getD_none]
  rw [if_neg (by norm_num : ¬(0:ℚ) < 0), if_neg (by norm_num : ¬(1:ℚ)/5 < 0)]
  rfl

theorem analyze_risks_empty : analyze_risks emptyFinDoc emptySentView = [] := by
  rw [analyze_risks]
  have h1 : emptyFinDoc.price_change_percent = none := rfl
  have h2 : emptySentView.legal_concerns = none := rfl
  rw [h1, h2]
  simp only [Option.getD_none]
  rw [if_neg (by norm_num : ¬(0:ℚ) < -5)]
  rfl

/-- Claim C8 (amended): on a missing or malformed input file,
`_analyze_news_sentiment` yields the empty aggregate
`{articles: [], overall_score: 0.0, legal_concerns: []}` inside the
sentiment document, `DataAnalystAgent.analyze_data` yields its full
output record with empty collections and empty summary, and
`RegulatoryAnalystAgent.analyze_regulations` returns the bare empty
dict `{}` (modelled by `none`), not a populated findings record; no
stage raises. -/
theorem claim_c8_amended (company now : String) (M : TextModel)
    (social : List SocialPost) (e1 e2 e3 e4 e5 : LoadErr) :
    ((analyze_sentiment company M (Except.error e1) social).sentiment_analysis.news_sentiment
        = { articles := [], overall_score := 0, legal_concerns := [] })
    ∧ (analyze_data company now (Except.error e2) (Except.error e3) (Except.error e4)
        = { company := company, timestamp := now, market_trends := []
            competitor_analysis := [], opportunities := [], risk_factors := []
            summary := "" })
    ∧ (analyze_regulations_run company now (Except.error e5) = none) := by
  refine ⟨rfl, ?_, rfl⟩
  rw [analyze_data]
  simp only [loadOrEmpty]
  have hn : emptyNewsData.news = ([] : List Article) := rfl
  rw [hn, analyze_market_trends_empty, analyze_competitors_nil,
    identify_opportunities_empty, analyze_risks_empty]

/-- Counterexample to C8 as stated: on a missing `raw_data.json` the
RegulatoryScreener's entry point returns the empty dict `{}` (`none`),
which is not the stage's output record with empty collections. -/
theorem claim_c8_counterexample :
    (analyze_regulations_run ("Samsung") ("T0")
        (Except.error LoadErr.fileMissing) = none)
    ∧ (analyze_regulations_run ("Samsung") ("T0")
        (Except.error LoadErr.fileMissing)
        ≠ some { company := "Samsung", timestamp := "T0"
                 regulatory_mentions := [], compliance_risks := []
                 summary := "" }) := by
  refine ⟨rfl, ?_⟩
  rw [analyze_regulations_run]
  simp

/-- Concrete article whose adjusted polarity is `0.3` under `zeroModel`
(it contains the indicators `growth`, `success` and `launch`). -/
def c2Article : Article := { title := "growth success launch event", link := "l" }

/-- Concrete snapshot with a negative price change, as written by
`fetch_financial_data`. -/
def c2Snapshot : FinancialSnapshot :=
  { company := "Tesla", ticker := "TSLA", current_price := 100
    price_change_percent := -3
    market_cap :=
      { value := some 1000000000, currency := "USD"
        usd_value := some 1000000000, formatted := "$1.00B USD" }
    exchange := "NMS", timestamp := "T0" }

theorem specFinalScore_c2 :
    specFinalScore zeroModel ("growth success launch event") = 3/10 := by
  have hp : posHits ("growth success launch event") = 3 := by decide
  have hn : negHits ("growth success launch event") = 0 := by decide
  rw [specFinalScore, specAdjScore, hp, hn, zeroModel]
  push_cast
  rw [show ((0:ℚ) + 3 * (1/10) - 0 * (1/10)) = 3/10 by ring]
  exact clampEval (3/10) (by norm_num) (by norm_num)

/-- Claim C2 is refuted by the code on pipeline data (code bug): the
sentiment document stores the aggregate score at
`sentiment_analysis.news_sentiment.overall_score` (here `0.3 > 0.2`),
but `_identify_opportunities` reads
`sentiment_data["sentiment_analysis"]["overall_score"]`, a key the
scorer never writes, so the `.get` default `0` is used and the
`"market_sentiment"` opportunity is never emitted: with
`price_change_percent = -3 < 0` and aggregate score `0.3 > 0.2` the
claim demands both entries, yet the code produces only `"investment"`. -/
theorem claim_c2_bug :
    ((analyze_sentiment ("Tesla") zeroModel (Except.ok [c2Article])
        []).sentiment_analysis.news_sentiment.overall_score = 3/10)
    ∧ ((1:ℚ)/5 < 3/10)
    ∧ ((consumedFin c2Snapshot).price_change_percent.getD 0 < 0)
    ∧ ((identify_opportunities (consumedFin c2Snapshot)
          (consumedSent (analyze_sentiment ("Tesla") zeroModel
            (Except.ok [c2Article]) []))).map (fun o => o.type)
        = ["investment"]) := by
  refine ⟨?_, by norm_num, ?_, ?_⟩
  · show (analyzeNews zeroModel [c2Article]).overall_score = 3/10
    rw [analyzeNews_overall,
      if_neg (by decide : ¬([c2Article] : List Article) = [])]
    have hmap : ([c2Article] : List Article).map
        (fun a => finalScore zeroModel a.title) = [3/10] := by
      simp only [List.map_cons, List.map_nil]
      rw [show c2Article.title = "growth success launch event" from rfl,
        finalScore_eq_spec, specFinalScore_c2]
    rw [hmap]
    simp only [List.sum_cons, List.sum_nil, List.length_cons, List.length_nil]
    rw [show ((3:ℚ)/10 + 0) / ((0 + 1 : ℕ) : ℚ) = 3/10 by push_cast; ring,
      round3_eq_of_lt_half (3/10) 300 (by norm_num) (by norm_num) (by norm_num)]
    norm_num
  · show ((some (-3) : Option ℚ).getD 0 < 0)
    norm_num
  · rw [identify_opportunities]
    have h1 : (consumedFin c2Snapshot).price_change_percent = some (-3) := rfl
    have h2 : (consumedSent (analyze_sentiment ("Tesla") zeroModel
        (Except.ok [c2Article]) [])).sentiment_analysis
        = some (none : Option ℚ) := rfl
    rw [h1, h2]
    simp only [Option.getD_some, Option.getD_none]
    rw [if_pos (by norm_num : (-3:ℚ) < 0),
      if_neg (by norm_num : ¬(1:ℚ)/5 < 0)]
    rfl

/-- Concrete snapshot with a present formatted market cap and a small
positive price change, as written by `fetch_financial_data`. -/
def c9Snapshot : FinancialSnapshot :=
  { company := "Apple", ticker := "AAPL", current_price := 100
    price_change_percent := 1
    market_cap :=
      { value := some 300000000000, currency := "USD"
        usd_value := some 300000000000, formatted := "$300.00B USD" }
    exchange := "NMS", timestamp := "T0" }

/-- Claim C9 is refuted by the code on pipeline data (code bug): the
snapshot carries a formatted market-cap value (`market_cap.formatted`)
and `price_change_percent = 1 > -5`, so the claim demands a
`"market_position"` entry with impact `"stable"`; but
`_analyze_market_trends` reads the flat key `"market_cap_formatted"`,
which `fetch_financial_data` never writes, so the `.get` default
`"N/A"` is used and no `"market_position"` entry is ever emitted. -/
theorem claim_c9_bug :
    (c9Snapshot.market_cap.formatted = "$300.00B USD")
    ∧ ((-5:ℚ) < c9Snapshot.price_change_percent)
    ∧ (analyze_market_trends (consumedFin c9Snapshot) = []) := by
  refine ⟨rfl, by norm_num [c9Snapshot], ?_⟩
  rw [analyze_market_trends]
  have h1 : (consumedFin c9Snapshot).price_change_percent = some 1 := rfl
  have h2 : (consumedFin c9Snapshot).market_cap_formatted = none := rfl
  rw [h1, h2]
  simp only [Option.getD_some, Option.getD_none]
  rw [if_neg (by rw [abs_one]; norm_num : ¬(5:ℚ) < |1|), if_neg (by simp)]
  rfl

/-- Claim C6: for each competitor in the company's fixed list,
`_analyze_competitors` emits exactly one entry iff its mention count is
positive, with `mentions` equal to the case-insensitive substring count
and relevance `"high"` iff `mentions > 2` (else `"medium"`);
a company absent from the static map yields an empty list. -/
theorem claim_c6 (company : String) (news : List Article) (c : String) :
    (c ∈ competitorsOf company →
      (analyze_competitors company news).filter (fun e => e.competitor = c)
        = if 0 < mentionCount c news then
            [{ competitor := c, mentions := mentionCount c news
               relevance := if 2 < mentionCount c news then "high" else "medium" }]
          else [])
    ∧ (lookupAssoc competitor_map company = none →
        analyze_competitors company news = []) := by
  constructor
  · intro hc
    have hnd : (competitorsOf company).Nodup := by
      rw [competitorsOf]
      cases hl : lookupAssoc competitor_map company with
      | none => simp
      | some l =>
          have hm := lookupAssoc_mem competitor_map company l hl
          simp only [competitor_map, List.map_cons, List.map_nil,
            List.mem_cons, List.not_mem_nil, or_false] at hm
          simp only [Option.getD_some]
          rcases hm with h | h | h | h <;> subst h <;> decide
    have hkey := filterMap_filter_of_nodup (competitorEntryOf news)
      (competitorEntryOf_name news) (competitorsOf company) hnd c hc
    rw [analyze_competitors, hkey, competitorEntryOf]
    split_ifs <;> rfl
  · intro hl
    rw [analyze_competitors, competitorsOf, hl]
    rfl

/-- Concrete news list from the spec's competitor example. -/
def c6News : List Article :=
  [{ title := "Apple unveils new phone", link := "l1" },
   { title := "apple event today", link := "l2" },
   { title := "Samsung Q3 report", link := "l3" }]

/-- Witness for C6 at the spec's example: for company `"Samsung"` the
competitor `"Apple"` is counted case-insensitively in 2 of 3 titles and
yields exactly one entry with relevance `"medium"`; an unmapped company
yields the empty list. -/
theorem claim_c6_witness :
    ((analyze_competitors ("Samsung") c6News).filter
        (fun e => e.competitor = "Apple")
      = [{ competitor := "Apple", mentions := 2, relevance := "medium" }])
    ∧ (analyze_competitors ("NoSuchCo") c6News = []) := by
  constructor
  · exact ((claim_c6 ("Samsung") c6News ("Apple")).1 (by decide)).trans (by decide)
  · exact (claim_c6 ("NoSuchCo") c6News ("Apple")).2 (by decide)

theorem flatMap_const_nil {α β : Type} :
    ∀ l : List α, (l.flatMap (fun _ => ([] : List β))) = []
  | [] => rfl
  | a :: t => by simp [List.flatMap_cons, flatMap_const_nil t]

/-- Claim C7: `analyze_regulations` appends exactly one mention per
(article, keyword) pair whose lowered keyword occurs in the lowered
title — so its mention list is the per-article concatenation of one
entry per matching keyword, its length is the sum over articles of the
number of matching keywords (a title matching two keywords contributes
two entries), and a company absent from the regulatory map yields zero
mentions. -/
theorem claim_c7 (company now : String) (news : List Article) :
    ((analyze_regulations company now news).regulatory_mentions
        = news.flatMap (fun a =>
            ((keywordsOf company).filter
              (fun k => hasSubstr (strLower k) (strLower a.title))).map
                (fun k => { regulation := k, title := a.title, link := a.link })))
    ∧ ((analyze_regulations company now news).regulatory_mentions.length
        = (news.map (fun a =>
            ((keywordsOf company).filter
              (fun k => hasSubstr (strLower k) (strLower a.title))).length)).sum)
    ∧ (lookupAssoc regulatory_map company = none →
        (analyze_regulations company now news).regulatory_mentions = []) := by
  have h1 : (analyze_regulations company now news).regulatory_mentions
      = news.flatMap (fun a =>
          ((keywordsOf company).filter
            (fun k => hasSubstr (strLower k) (strLower a.title))).map
              (fun k => { regulation := k, title := a.title, link := a.link })) := by
    show regulatory_mentions_for company news = _
    rw [regulatory_mentions_for]
    simp only [filterMap_if_eq_filter_map]
  refine ⟨h1, ?_, ?_⟩
  · rw [h1, length_flatMap]
    simp [List.length_map]
  · intro hl
    have hk : keywordsOf company = [] := by rw [keywordsOf, hl]
    show regulatory_mentions_for company news = []
    rw [regulatory_mentions_for]
    simp only [hk, List.filterMap_nil, flatMap_const_nil]

/-- Concrete news list whose single title matches two Samsung keywords
(`GDPR` and `antitrust`). -/
def c7News : List Article :=
  [{ title := "GDPR antitrust probe hits market", link := "l1" }]

/-- Witness for C7: the one title matching two keywords produces two
mention entries; an unmapped company produces none. -/
theorem claim_c7_witness :
    ((analyze_regulations ("Samsung") ("T0") c7News).regulatory_mentions.length = 2)
    ∧ ((analyze_regulations ("Acme") ("T0") c7News).regulatory_mentions = []) := by
  constructor
  · exact ((claim_c7 ("Samsung") ("T0") c7News).2.1).trans (by decide)
  · exact (claim_c7 ("Acme") ("T0") c7News).2.2 (by decide)
